import Mathlib

/-!
Shallow embedding of the rsc8_core CHIP-8 emulator core
(src/rsc8_core/src/{instruction,error,chip8,rng}.rs) and proofs about it.

Machine integers are modelled as `Nat` with explicit reduction modulo
2^8 / 2^16 exactly where the Rust code wraps; fallible operations
(array indexing that can go out of bounds, the explicit stack-overflow
abort in opcode 2NNN, and the u16 underflow in 00EE) are modelled by
`Option`, with `none` standing for the Rust panic.
-/

namespace Rsc8

/-- Decode error, from src/rsc8_core/src/error.rs: the single variant
carries the raw 16-bit opcode. -/
inductive InstructionError where
  | unknownOpcode (opcode : Nat)
deriving DecidableEq

/-- The 34 instruction variants, from src/rsc8_core/src/instruction.rs.
Operand fields are the decoded nibbles / bytes / 12-bit addresses. -/
inductive Instruction where
  | ins00E0
  | ins00EE
  | ins1NNN (nnn : Nat)
  | ins2NNN (nnn : Nat)
  | ins3XNN (x nn : Nat)
  | ins4XNN (x nn : Nat)
  | ins5XY0 (x y : Nat)
  | ins6XNN (x nn : Nat)
  | ins7XNN (x nn : Nat)
  | ins8XY0 (x y : Nat)
  | ins8XY1 (x y : Nat)
  | ins8XY2 (x y : Nat)
  | ins8XY3 (x y : Nat)
  | ins8XY4 (x y : Nat)
  | ins8XY5 (x y : Nat)
  | ins8XY6 (x y : Nat)
  | ins8XY7 (x y : Nat)
  | ins8XYE (x y : Nat)
  | ins9XY0 (x y : Nat)
  | insANNN (nnn : Nat)
  | insBNNN (nnn : Nat)
  | insCXNN (x nn : Nat)
  | insDXYN (x y n : Nat)
  | insEX9E (x : Nat)
  | insEXA1 (x : Nat)
  | insFX07 (x : Nat)
  | insFX0A (x : Nat)
  | insFX15 (x : Nat)
  | insFX18 (x : Nat)
  | insFX1E (x : Nat)
  | insFX29 (x : Nat)
  | insFX33 (x : Nat)
  | insFX55 (x : Nat)
  | insFX65 (x : Nat)
deriving DecidableEq

namespace Instruction

/-- Split an opcode into its four 4-bit nibbles, highest first
(Instruction::nibbles). -/
def nibbles (opcode : Nat) : Nat × Nat × Nat × Nat :=
  ((opcode &&& 0xF000) >>> 12, (opcode &&& 0x0F00) >>> 8,
   (opcode &&& 0x00F0) >>> 4, opcode &&& 0x000F)

/-- Low 12 bits of an opcode: the address operand (Instruction::nnn). -/
def nnn (opcode : Nat) : Nat := opcode &&& 0x0FFF

/-- Low 8 bits of an opcode: the immediate operand (Instruction::nn). -/
def nn (opcode : Nat) : Nat := opcode &&& 0x00FF

/-- The decode table over the four destructured nibbles (n1 highest),
translated row by row, in table order, from the Rust match into a chain
of guards — each pattern row is the conjunction of equality tests on its
non-wildcard nibbles — falling through to UnknownOpcode with the raw
opcode. -/
def tryFromNibbles (opcode n1 n2 n3 n4 : Nat) :
    Except InstructionError Instruction :=
  if n1 = 0x0 ∧ n2 = 0x0 ∧ n3 = 0xE ∧ n4 = 0x0 then .ok .ins00E0
  else if n1 = 0x0 ∧ n2 = 0x0 ∧ n3 = 0xE ∧ n4 = 0xE then .ok .ins00EE
  else if n1 = 0x1 then .ok (.ins1NNN (nnn opcode))
  else if n1 = 0x2 then .ok (.ins2NNN (nnn opcode))
  else if n1 = 0x3 then .ok (.ins3XNN n2 (nn opcode))
  else if n1 = 0x4 then .ok (.ins4XNN n2 (nn opcode))
  else if n1 = 0x5 ∧ n4 = 0x0 then .ok (.ins5XY0 n2 n3)
  else if n1 = 0x6 then .ok (.ins6XNN n2 (nn opcode))
  else if n1 = 0x7 then .ok (.ins7XNN n2 (nn opcode))
  else if n1 = 0x8 ∧ n4 = 0x0 then .ok (.ins8XY0 n2 n3)
  else if n1 = 0x8 ∧ n4 = 0x1 then .ok (.ins8XY1 n2 n3)
  else if n1 = 0x8 ∧ n4 = 0x2 then .ok (.ins8XY2 n2 n3)
  else if n1 = 0x8 ∧ n4 = 0x3 then .ok (.ins8XY3 n2 n3)
  else if n1 = 0x8 ∧ n4 = 0x4 then .ok (.ins8XY4 n2 n3)
  else if n1 = 0x8 ∧ n4 = 0x5 then .ok (.ins8XY5 n2 n3)
  else if n1 = 0x8 ∧ n4 = 0x6 then .ok (.ins8XY6 n2 n3)
  else if n1 = 0x8 ∧ n4 = 0x7 then .ok (.ins8XY7 n2 n3)
  else if n1 = 0x8 ∧ n4 = 0xE then .ok (.ins8XYE n2 n3)
  else if n1 = 0x9 ∧ n4 = 0x0 then .ok (.ins9XY0 n2 n3)
  else if n1 = 0xA then .ok (.insANNN (nnn opcode))
  else if n1 = 0xB then .ok (.insBNNN (nnn opcode))
  else if n1 = 0xC then .ok (.insCXNN n2 (nn opcode))
  else if n1 = 0xD then .ok (.insDXYN n2 n3 n4)
  else if n1 = 0xE ∧ n3 = 0x9 ∧ n4 = 0xE then .ok (.insEX9E n2)
  else if n1 = 0xE ∧ n3 = 0xA ∧ n4 = 0x1 then .ok (.insEXA1 n2)
  else if n1 = 0xF ∧ n3 = 0x0 ∧ n4 = 0x7 then .ok (.insFX07 n2)
  else if n1 = 0xF ∧ n3 = 0x0 ∧ n4 = 0xA then .ok (.insFX0A n2)
  else if n1 = 0xF ∧ n3 = 0x1 ∧ n4 = 0x5 then .ok (.insFX15 n2)
  else if n1 = 0xF ∧ n3 = 0x1 ∧ n4 = 0x8 then .ok (.insFX18 n2)
  else if n1 = 0xF ∧ n3 = 0x1 ∧ n4 = 0xE then .ok (.insFX1E n2)
  else if n1 = 0xF ∧ n3 = 0x2 ∧ n4 = 0x9 then .ok (.insFX29 n2)
  else if n1 = 0xF ∧ n3 = 0x3 ∧ n4 = 0x3 then .ok (.insFX33 n2)
  else if n1 = 0xF ∧ n3 = 0x5 ∧ n4 = 0x5 then .ok (.insFX55 n2)
  else if n1 = 0xF ∧ n3 = 0x6 ∧ n4 = 0x5 then .ok (.insFX65 n2)
  else .error (.unknownOpcode opcode)

/-- The decoder (impl TryFrom<u16> for Instruction): destructures the
opcode into its four nibbles and consults the decode table. -/
def tryFrom (opcode : Nat) : Except InstructionError Instruction :=
  tryFromNibbles opcode (nibbles opcode).1 (nibbles opcode).2.1
    (nibbles opcode).2.2.1 (nibbles opcode).2.2.2

end Instruction

set_option maxHeartbeats 4000000 in
/-- Helper: whenever the decode table rejects an opcode, the error it
returns carries exactly that opcode — the fall-through arm is the only
error source in the table. -/
theorem tryFromNibbles_error_carries (opcode n1 n2 n3 n4 : Nat)
    (e : InstructionError)
    (h : Instruction.tryFromNibbles opcode n1 n2 n3 n4 = .error e) :
    e = .unknownOpcode opcode := by
  rcases Nat.lt_or_ge n1 16 with h16 | h16
  · interval_cases n1 <;>
      (simp [Instruction.tryFromNibbles] at h
       repeat' split at h
       all_goals first
         | (injection h with h2; exact h2.symm)
         | injection h
         | simp_all)
  · have e0 : n1 ≠ 0x0 := by omega
    have e1 : n1 ≠ 0x1 := by omega
    have e2 : n1 ≠ 0x2 := by omega
    have e3 : n1 ≠ 0x3 := by omega
    have e4 : n1 ≠ 0x4 := by omega
    have e5 : n1 ≠ 0x5 := by omega
    have e6 : n1 ≠ 0x6 := by omega
    have e7 : n1 ≠ 0x7 := by omega
    have e8 : n1 ≠ 0x8 := by omega
    have e9 : n1 ≠ 0x9 := by omega
    have eA : n1 ≠ 0xA := by omega
    have eB : n1 ≠ 0xB := by omega
    have eC : n1 ≠ 0xC := by omega
    have eD : n1 ≠ 0xD := by omega
    have eE : n1 ≠ 0xE := by omega
    have eF : n1 ≠ 0xF := by omega
    simp [Instruction.tryFromNibbles, e0, e1, e2, e3, e4, e5, e6, e7, e8,
      e9, eA, eB, eC, eD, eE, eF] at h
    exact h.symm

/-- Helper: whenever the decoder rejects an opcode, the error carries
exactly that opcode. -/
theorem tryFrom_error_carries (opcode : Nat) (e : InstructionError)
    (h : Instruction.tryFrom opcode = .error e) :
    e = .unknownOpcode opcode :=
  tryFromNibbles_error_carries opcode _ _ _ _ e h

set_option maxHeartbeats 4000000 in
/-- C1: decoding is total and deterministic — every 16-bit opcode either
decodes to some instruction variant or fails with UnknownOpcode carrying
exactly that opcode; in particular the near-miss patterns 0x00F1, 0x5CD1
and 0x8AB9 fail with UnknownOpcode of that raw opcode. -/
theorem tryFrom_total_error_carries_opcode :
    (∀ opcode : Nat,
      (∃ i, Instruction.tryFrom opcode = .ok i)
      ∨ Instruction.tryFrom opcode = .error (.unknownOpcode opcode))
    ∧ Instruction.tryFrom 0x00F1 = .error (.unknownOpcode 0x00F1)
    ∧ Instruction.tryFrom 0x5CD1 = .error (.unknownOpcode 0x5CD1)
    ∧ Instruction.tryFrom 0x8AB9 = .error (.unknownOpcode 0x8AB9) := by
  refine ⟨fun opcode => ?_, rfl, rfl, rfl⟩
  cases h : Instruction.tryFrom opcode with
  | ok i => exact Or.inl ⟨i, rfl⟩
  | error e => exact Or.inr (by rw [tryFrom_error_carries opcode e h])

/-- The linear congruential generator state (src/rsc8_core/src/rng.rs):
a single u16 seed. -/
structure LinearCongruentialGenerator where
  seed : Nat
deriving DecidableEq

namespace LinearCongruentialGenerator

/-- Default seed (DEFAULT_SEED = 888). -/
def default : LinearCongruentialGenerator := ⟨888⟩

/-- One LCG step on the raw seed: u16 wrapping multiply by A = 75 then
wrapping add of C = 74, exactly as `LCG_A.wrapping_mul(self.seed)
.wrapping_add(LCG_C)`. -/
def stepSeed (seed : Nat) : Nat := ((75 * seed) % 65536 + 74) % 65536

/-- Iterator::next for the generator: advance the seed, return `Some`
of the new seed together with the advanced state. -/
def next (g : LinearCongruentialGenerator) :
    Option Nat × LinearCongruentialGenerator :=
  (some (stepSeed g.seed), ⟨stepSeed g.seed⟩)

/-- The n-th value produced by repeatedly calling next (n ≥ 1 steps
applied to the seed). -/
def seq (g : LinearCongruentialGenerator) : Nat → Nat
  | 0 => g.seed
  | n + 1 => stepSeed (seq g n)

end LinearCongruentialGenerator

/-- Memory size in bytes (MEMORY_SIZE = 4096). -/
def MEMORY_SIZE : Nat := 4096

/-- Number of general registers (NUM_REGISTERS = 16). -/
def NUM_REGISTERS : Nat := 16

/-- Call stack capacity (STACK_SIZE = 16). -/
def STACK_SIZE : Nat := 16

/-- Program entry point (PROGRAM_START = 0x200 = 512). -/
def PROGRAM_START : Nat := 0x200

/-- ROM load offset (ROM_START = 512). -/
def ROM_START : Nat := 512

/-- Fontset load offset (FONTSET_START = 0). -/
def FONTSET_START : Nat := 0

/-- Fontset byte count (FONTSET_SIZE = 80). -/
def FONTSET_SIZE : Nat := 80

/-- Keypad size (KEYPAD_SIZE = 16). -/
def KEYPAD_SIZE : Nat := 16

/-- Screen width in pixels (SCREEN_WIDTH = 64). -/
def SCREEN_WIDTH : Nat := 64

/-- Screen height in pixels (SCREEN_HEIGHT = 32). -/
def SCREEN_HEIGHT : Nat := 32

/-- The 80-byte built-in font glyph table (const FONTSET). -/
def FONTSET : Array Nat :=
  #[0xF0, 0x90, 0x90, 0x90, 0xF0,
    0x20, 0x60, 0x20, 0x20, 0x70,
    0xF0, 0x10, 0xF0, 0x80, 0xF0,
    0xF0, 0x10, 0xF0, 0x10, 0xF0,
    0x90, 0x90, 0xF0, 0x10, 0x10,
    0xF0, 0x80, 0xF0, 0x10, 0xF0,
    0xF0, 0x80, 0xF0, 0x90, 0xF0,
    0xF0, 0x10, 0x20, 0x40, 0x40,
    0xF0, 0x90, 0xF0, 0x90, 0xF0,
    0xF0, 0x90, 0xF0, 0x10, 0xF0,
    0xF0, 0x90, 0xF0, 0x90, 0x90,
    0xE0, 0x90, 0xE0, 0x90, 0xE0,
    0xF0, 0x80, 0x80, 0x80, 0xF0,
    0xE0, 0x90, 0x90, 0x90, 0xE0,
    0xF0, 0x80, 0xF0, 0x80, 0xF0,
    0xF0, 0x80, 0xF0, 0x80, 0x80]

/-- Overwrite dst[offset + k] with src[k] for every index k of src, the
model of Rust copy_from_slice into a subrange. -/
def copyInto (dst : Array Nat) (offset : Nat) (src : Array Nat) : Array Nat :=
  (List.range src.size).foldl (fun m k => m.setD (offset + k) (src.getD k 0)) dst

/-- The machine state (struct Chip8), with the repository's own default
rng instantiation: the generic rng field is the LCG seed, as in
Chip8<LinearCongruentialGenerator>. Byte/word fields are Nats reduced
modulo 256 / 65536 where the Rust types wrap. -/
structure Chip8 where
  memory : Array Nat
  pc : Nat
  v_reg : Array Nat
  i_reg : Nat
  delay_timer : Nat
  sound_timer : Nat
  stack : Array Nat
  stack_pointer : Nat
  keypad : Array Bool
  screen : Array Bool
  draw_flag : Bool
  rng_seed : Nat
  wait_for_key_release : Option Nat
deriving DecidableEq

namespace Chip8

/-- Chip8::new — the initial machine around a given rng seed. -/
def new (seed : Nat) : Chip8 :=
  { memory := Array.mkArray MEMORY_SIZE 0
    pc := PROGRAM_START
    v_reg := Array.mkArray NUM_REGISTERS 0
    i_reg := 0
    delay_timer := 0
    sound_timer := 0
    stack := Array.mkArray STACK_SIZE 0
    stack_pointer := 0
    keypad := Array.mkArray KEYPAD_SIZE false
    screen := Array.mkArray (SCREEN_WIDTH * SCREEN_HEIGHT) false
    draw_flag := false
    rng_seed := seed
    wait_for_key_release := none }

/-- Chip8::load_fontset — copy the glyph table to the front of memory. -/
def load_fontset (c : Chip8) : Chip8 :=
  { c with memory := copyInto c.memory 0 FONTSET }

/-- Chip8::load_rom — copy the ROM bytes to memory at ROM_START (the
caller guarantees the image fits, as in the source). -/
def load_rom (c : Chip8) (buf : Array Nat) : Chip8 :=
  { c with memory := copyInto c.memory ROM_START buf }

/-- Chip8::tick_timer — decrement both timers, saturating at zero. -/
def tick_timer (c : Chip8) : Chip8 :=
  { c with delay_timer := c.delay_timer - 1, sound_timer := c.sound_timer - 1 }

/-- Chip8::keypress — set one keypad entry; none models the
out-of-bounds index panic. -/
def keypress (c : Chip8) (idx : Nat) (pressed : Bool) : Option Chip8 :=
  if idx < c.keypad.size then
    some { c with keypad := c.keypad.setD idx pressed }
  else none

/-- Chip8::fetch_opcode — read the big-endian opcode at pc and advance
pc by 2 (u16 wrap); none models the out-of-bounds memory read panic. -/
def fetch_opcode (c : Chip8) : Option (Nat × Chip8) := do
  let high ← c.memory[c.pc]?
  let low ← c.memory[c.pc + 1]?
  pure ((high <<< 8) ||| low, { c with pc := (c.pc + 2) % 65536 })

/-- Chip8::get_display — the framebuffer. -/
def get_display (c : Chip8) : Array Bool := c.screen

/-- Chip8::reset — restore the fields the source resets to their initial
values and reload the font table (the rng and wait_for_key_release
fields are not assigned by the source and stay). -/
def reset (c : Chip8) : Chip8 :=
  { c with
    pc := PROGRAM_START
    memory := copyInto (Array.mkArray MEMORY_SIZE 0) 0 FONTSET
    screen := Array.mkArray (SCREEN_WIDTH * SCREEN_HEIGHT) false
    v_reg := Array.mkArray NUM_REGISTERS 0
    i_reg := 0
    stack_pointer := 0
    stack := Array.mkArray STACK_SIZE 0
    keypad := Array.mkArray KEYPAD_SIZE false
    delay_timer := 0
    sound_timer := 0
    draw_flag := false }

/-- Read register x (v_reg indexing; none models the bounds panic). -/
def readV (c : Chip8) (x : Nat) : Option Nat := c.v_reg[x]?

/-- Write register x (v_reg indexing; none models the bounds panic). -/
def writeV (c : Chip8) (x val : Nat) : Option Chip8 :=
  if x < c.v_reg.size then some { c with v_reg := c.v_reg.setD x val }
  else none

/-- Write one memory byte (none models the bounds panic). -/
def writeMem (c : Chip8) (addr val : Nat) : Option Chip8 :=
  if addr < c.memory.size then some { c with memory := c.memory.setD addr val }
  else none

/-- Inner loop of the DXYN draw: columns col..7 of one sprite row at
screen row sy, breaking at the right screen edge; the flag register
value is threaded as a scalar since the loop writes no other register. -/
def drawColsFrom (spriteRow vx sy : Nat) (screen : Array Bool) (vf : Nat)
    (col : Nat) : Array Bool × Nat :=
  if col < 8 then
    if 64 ≤ vx + col then (screen, vf)
    else
      let spritePixel := (spriteRow &&& (128 >>> col)) != 0
      let idx := (vx + col) + sy * 64
      let screenPixel := screen.getD idx false
      let vf2 := if spritePixel && screenPixel then 1 else vf
      drawColsFrom spriteRow vx sy
        (screen.setD idx (Bool.xor screenPixel spritePixel)) vf2 (col + 1)
  else (screen, vf)
termination_by 8 - col

/-- Outer loop of the DXYN draw: rows row..n-1, breaking at the bottom
screen edge; each completed row sets the draw flag; none models the
sprite-byte memory read panic. -/
def drawRows (mem : Array Nat) (iReg vx vy n : Nat) (screen : Array Bool)
    (vf : Nat) (df : Bool) (row : Nat) : Option (Array Bool × Nat × Bool) :=
  if row < n then
    if 32 ≤ vy + row then some (screen, vf, df)
    else
      match mem[(iReg + row) % 65536]? with
      | none => none
      | some spriteRow =>
          let p := drawColsFrom spriteRow vx (vy + row) screen vf 0
          drawRows mem iReg vx vy n p.1 p.2 true (row + 1)
  else some (screen, vf, df)
termination_by n - row

/-- FX0A key scan: index of the first pressed key at or after i. -/
def firstPressed (keypad : Array Bool) (i : Nat) : Option Nat :=
  if i < keypad.size then
    if keypad.getD i false then some i else firstPressed keypad (i + 1)
  else none
termination_by keypad.size - i

/-- FX55 loop: store V0..=VX to memory at the index register. -/
def storeRegs (c : Chip8) (x k : Nat) : Option Chip8 :=
  if k ≤ x then do
    let v ← readV c k
    let c2 ← writeMem c ((c.i_reg + k) % 65536) v
    storeRegs c2 x (k + 1)
  else some c
termination_by x + 1 - k

/-- FX65 loop: fill V0..=VX from memory at the index register. -/
def loadRegs (c : Chip8) (x k : Nat) : Option Chip8 :=
  if k ≤ x then do
    let v ← c.memory[(c.i_reg + k) % 65536]?
    let c2 ← writeV c k v
    loadRegs c2 x (k + 1)
  else some c
termination_by x + 1 - k

/-- Chip8::execute_instruction — the per-instruction state transition;
none models the Rust panics (index out of bounds, the explicit 2NNN
stack-overflow abort, and the 00EE stack-pointer underflow, which wraps
to 65535 and then indexes the 16-entry stack out of bounds). -/
def execute_instruction (c : Chip8) : Instruction → Option Chip8
  | .ins00E0 =>
      some { c with screen := Array.mkArray (SCREEN_WIDTH * SCREEN_HEIGHT) false,
                    draw_flag := true }
  | .ins00EE =>
      let sp2 := (c.stack_pointer + 65536 - 1) % 65536
      do
        let ret ← c.stack[sp2]?
        some { c with stack_pointer := sp2, pc := ret }
  | .ins1NNN nnn => some { c with pc := nnn }
  | .ins2NNN nnn =>
      if STACK_SIZE ≤ c.stack_pointer then none
      else some { c with stack := c.stack.setD c.stack_pointer c.pc,
                         stack_pointer := c.stack_pointer + 1,
                         pc := nnn }
  | .ins3XNN x nn => do
      let vx ← readV c x
      if vx = nn then some { c with pc := (c.pc + 2) % 65536 } else some c
  | .ins4XNN x nn => do
      let vx ← readV c x
      if vx ≠ nn then some { c with pc := (c.pc + 2) % 65536 } else some c
  | .ins5XY0 x y => do
      let vx ← readV c x
      let vy ← readV c y
      if vx = vy then some { c with pc := (c.pc + 2) % 65536 } else some c
  | .ins6XNN x nn => writeV c x nn
  | .ins7XNN x nn => do
      let vx ← readV c x
      writeV c x ((vx + nn) % 256)
  | .ins8XY0 x y => do
      let vy ← readV c y
      writeV c x vy
  | .ins8XY1 x y => do
      let vx ← readV c x
      let vy ← readV c y
      let c2 ← writeV c x (vx ||| vy)
      writeV c2 0xF 0
  | .ins8XY2 x y => do
      let vx ← readV c x
      let vy ← readV c y
      let c2 ← writeV c x (vx &&& vy)
      writeV c2 0xF 0
  | .ins8XY3 x y => do
      let vx ← readV c x
      let vy ← readV c y
      let c2 ← writeV c x (vx ^^^ vy)
      writeV c2 0xF 0
  | .ins8XY4 x y => do
      let vx ← readV c x
      let vy ← readV c y
      let c2 ← writeV c x ((vx + vy) % 256)
      writeV c2 0xF (if 256 ≤ vx + vy then 1 else 0)
  | .ins8XY5 x y => do
      let vx ← readV c x
      let vy ← readV c y
      let c2 ← writeV c x ((vx + 256 - vy) % 256)
      writeV c2 0xF (if vx < vy then 0 else 1)
  | .ins8XY6 x y => do
      let vy ← readV c y
      let c2 ← writeV c x vy
      let a ← readV c2 x
      let c3 ← writeV c2 x (a >>> 1)
      writeV c3 0xF (a &&& 1)
  | .ins8XY7 x y => do
      let vx ← readV c x
      let vy ← readV c y
      let c2 ← writeV c x ((vy + 256 - vx) % 256)
      writeV c2 0xF (if vy < vx then 0 else 1)
  | .ins8XYE x y => do
      let vy ← readV c y
      let c2 ← writeV c x vy
      let a ← readV c2 x
      let c3 ← writeV c2 x ((a <<< 1) % 256)
      writeV c3 0xF (a >>> 7)
  | .ins9XY0 x y => do
      let vx ← readV c x
      let vy ← readV c y
      if vx ≠ vy then some { c with pc := (c.pc + 2) % 65536 } else some c
  | .insANNN nnn => some { c with i_reg := nnn }
  | .insBNNN nnn => do
      let v0 ← readV c 0
      some { c with pc := (v0 + nnn) % 65536 }
  | .insCXNN x nn =>
      let r := LinearCongruentialGenerator.stepSeed c.rng_seed
      writeV { c with rng_seed := r } x ((r % 256) &&& nn)
  | .insDXYN x y n => do
      let vx0 ← readV c x
      let vy0 ← readV c y
      let vx := vx0 % SCREEN_WIDTH
      let vy := vy0 % SCREEN_HEIGHT
      let c2 ← writeV c 0xF 0
      let res ← drawRows c2.memory c2.i_reg vx vy n c2.screen 0 c2.draw_flag 0
      let c3 ← writeV c2 0xF res.2.1
      some { c3 with screen := res.1, draw_flag := res.2.2 }
  | .insEX9E x => do
      let vx ← readV c x
      let p ← c.keypad[vx]?
      if p then some { c with pc := (c.pc + 2) % 65536 } else some c
  | .insEXA1 x => do
      let vx ← readV c x
      let p ← c.keypad[vx]?
      if !p then some { c with pc := (c.pc + 2) % 65536 } else some c
  | .insFX07 x => writeV c x c.delay_timer
  | .insFX0A x =>
      match firstPressed c.keypad 0 with
      | some k => writeV { c with wait_for_key_release := some k } x k
      | none => some { c with pc := (c.pc + 65536 - 2) % 65536 }
  | .insFX15 x => do
      let vx ← readV c x
      some { c with delay_timer := vx }
  | .insFX18 x => do
      let vx ← readV c x
      some { c with sound_timer := vx }
  | .insFX1E x => do
      let vx ← readV c x
      some { c with i_reg := (c.i_reg + vx) % 65536 }
  | .insFX29 x => do
      let vx ← readV c x
      some { c with i_reg := (vx * 5) % 65536 }
  | .insFX33 x => do
      let vx ← readV c x
      let c2 ← writeMem c c.i_reg (vx / 100)
      let c3 ← writeMem c2 (c2.i_reg + 1) ((vx / 10) % 10)
      writeMem c3 (c3.i_reg + 2) (vx % 10)
  | .insFX55 x => do
      let c2 ← storeRegs c x 0
      some { c2 with i_reg := (c2.i_reg + x + 1) % 65536 }
  | .insFX65 x => do
      let c2 ← loadRegs c x 0
      some { c2 with i_reg := (c2.i_reg + x + 1) % 65536 }

/-- Chip8::tick — fetch, decode, execute; a decode failure is returned
as the Except error with the post-fetch state, and none models the Rust
panics. -/
def tick (c : Chip8) : Option (Except InstructionError Unit × Chip8) := do
  let r ← fetch_opcode c
  match Instruction.tryFrom r.1 with
  | .error err => pure (.error err, r.2)
  | .ok ins => do
      let c2 ← execute_instruction r.2 ins
      pure (.ok (), c2)

end Chip8

/-- C5: the entropy source satisfies seed' = (75 * seed + 74) mod 65536,
default initial seed is 888, every call to next returns Some of the new
seed while advancing the stored seed to that same value, and two
generators with equal seeds produce identical sequences. -/
theorem lcg_recurrence_default_total_reproducible :
    (∀ g : LinearCongruentialGenerator,
      g.next = (some ((75 * g.seed + 74) % 65536),
                ⟨(75 * g.seed + 74) % 65536⟩))
    ∧ LinearCongruentialGenerator.default.seed = 888
    ∧ (∀ g : LinearCongruentialGenerator, (g.next.1).isSome = true)
    ∧ (∀ g₁ g₂ : LinearCongruentialGenerator, g₁.seed = g₂.seed →
        ∀ n, g₁.seq n = g₂.seq n) := by
  refine ⟨fun g => ?_, rfl, fun g => rfl, fun g₁ g₂ h n => ?_⟩
  · have hs : LinearCongruentialGenerator.stepSeed g.seed
        = (75 * g.seed + 74) % 65536 := by
      unfold LinearCongruentialGenerator.stepSeed
      omega
    simp [LinearCongruentialGenerator.next, hs]
  · induction n with
    | zero => simpa [LinearCongruentialGenerator.seq] using h
    | succ k ih => simp [LinearCongruentialGenerator.seq, ih]

/-- C5 witness: the generator at the default seed 888 takes one concrete
step to (75 * 888 + 74) mod 65536 = 1138. -/
theorem lcg_recurrence_witness :
    LinearCongruentialGenerator.default.next
      = (some 1138, ⟨1138⟩) := by
  have h := lcg_recurrence_default_total_reproducible.1
    LinearCongruentialGenerator.default
  simpa using h

/-- Helper: an in-bounds checked array read yields the defaulted read. -/
theorem arr_read_eq {α : Type} (a : Array α) (i : Nat) (d : α)
    (h : i < a.size) : a[i]? = some (a.getD i d) := by
  simp [Array.getElem?_eq_getElem, Array.getD, h]

/-- Helper: an in-bounds register read yields the defaulted read. -/
theorem readV_eq (c : Chip8) (x : Nat) (h : x < c.v_reg.size) :
    c.readV x = some (c.v_reg.getD x 0) :=
  arr_read_eq c.v_reg x 0 h

/-- Helper: an in-bounds register write updates the register file. -/
theorem writeV_eq (c : Chip8) (x v : Nat) (h : x < c.v_reg.size) :
    c.writeV x v = some { c with v_reg := c.v_reg.setD x v } := by
  simp [Chip8.writeV, h]

/-- C6: 8XY4 stores the 8-bit wraparound sum in VX and sets VF to 1
exactly when the true sum exceeds 255; 8XY5 stores the 8-bit wraparound
difference VX - VY in VX and sets VF to 1 exactly when no borrow
occurred (VX >= VY). -/
theorem ins8XY4_ins8XY5_arith (c : Chip8) (x y : Nat)
    (hv : c.v_reg.size = 16) (hx : x < 16) (hy : y < 16) :
    Chip8.execute_instruction c (.ins8XY4 x y)
      = some { c with v_reg :=
          ((c.v_reg.setD x ((c.v_reg.getD x 0 + c.v_reg.getD y 0) % 256)).setD 0xF
            (if 256 ≤ c.v_reg.getD x 0 + c.v_reg.getD y 0 then 1 else 0)) }
    ∧ Chip8.execute_instruction c (.ins8XY5 x y)
      = some { c with v_reg :=
          ((c.v_reg.setD x ((c.v_reg.getD x 0 + 256 - c.v_reg.getD y 0) % 256)).setD 0xF
            (if c.v_reg.getD x 0 < c.v_reg.getD y 0 then 0 else 1)) } := by
  constructor <;>
  · have rx := readV_eq c x (by omega)
    have ry := readV_eq c y (by omega)
    simp [Chip8.execute_instruction, rx, ry, Chip8.writeV, Array.size_setD,
      hv, hx, hy]

/-- Sample state for the C6 addition example: V0 = 0xFE, V1 = 0x03. -/
def addSample : Chip8 :=
  { Chip8.new 888 with v_reg := ((Array.mkArray 16 0).setD 0 0xFE).setD 1 0x03 }

/-- Sample state for the C6 subtraction example: V0 = 0x05, V1 = 0x03. -/
def subSample : Chip8 :=
  { Chip8.new 888 with v_reg := ((Array.mkArray 16 0).setD 0 0x05).setD 1 0x03 }

/-- C6 witness: at the spec's concrete examples — V0=0xFE, V1=0x03 gives
V0=0x01 and VF=1 (carry); V0=0x05, V1=0x03 gives V0=0x02 and VF=1 (no
borrow). -/
theorem ins8XY4_ins8XY5_arith_witness :
    Chip8.execute_instruction addSample (.ins8XY4 0 1)
      = some { addSample with v_reg :=
          ((addSample.v_reg.setD 0 ((addSample.v_reg.getD 0 0 + addSample.v_reg.getD 1 0) % 256)).setD 0xF
            (if 256 ≤ addSample.v_reg.getD 0 0 + addSample.v_reg.getD 1 0 then 1 else 0)) }
    ∧ Chip8.execute_instruction subSample (.ins8XY5 0 1)
      = some { subSample with v_reg :=
          ((subSample.v_reg.setD 0 ((subSample.v_reg.getD 0 0 + 256 - subSample.v_reg.getD 1 0) % 256)).setD 0xF
            (if subSample.v_reg.getD 0 0 < subSample.v_reg.getD 1 0 then 0 else 1)) }
    ∧ (Chip8.execute_instruction addSample (.ins8XY4 0 1)).map
        (fun s => (s.v_reg.getD 0 0, s.v_reg.getD 0xF 0)) = some (0x01, 1)
    ∧ (Chip8.execute_instruction subSample (.ins8XY5 0 1)).map
        (fun s => (s.v_reg.getD 0 0, s.v_reg.getD 0xF 0)) = some (0x02, 1) :=
  ⟨(ins8XY4_ins8XY5_arith addSample 0 1 (by decide) (by decide) (by decide)).1,
   (ins8XY4_ins8XY5_arith subSample 0 1 (by decide) (by decide) (by decide)).2,
   by decide, by decide⟩

/-- C7: each of 8XY1 (OR), 8XY2 (AND), 8XY3 (XOR) stores the bitwise
combination of VX and VY into VX and unconditionally zeroes VF. -/
theorem ins8XY123_logic_zero_flag (c : Chip8) (x y : Nat)
    (hv : c.v_reg.size = 16) (hx : x < 16) (hy : y < 16) :
    Chip8.execute_instruction c (.ins8XY1 x y)
      = some { c with v_reg :=
          (c.v_reg.setD x (c.v_reg.getD x 0 ||| c.v_reg.getD y 0)).setD 0xF 0 }
    ∧ Chip8.execute_instruction c (.ins8XY2 x y)
      = some { c with v_reg :=
          (c.v_reg.setD x (c.v_reg.getD x 0 &&& c.v_reg.getD y 0)).setD 0xF 0 }
    ∧ Chip8.execute_instruction c (.ins8XY3 x y)
      = some { c with v_reg :=
          (c.v_reg.setD x (c.v_reg.getD x 0 ^^^ c.v_reg.getD y 0)).setD 0xF 0 } := by
  refine ⟨?_, ?_, ?_⟩ <;>
  · have rx := readV_eq c x (by omega)
    have ry := readV_eq c y (by omega)
    simp [Chip8.execute_instruction, rx, ry, Chip8.writeV, Array.size_setD,
      hv, hx, hy]

/-- C7 witness: OR/AND/XOR at a concrete state V0=0xFE, V1=0x03. -/
theorem ins8XY123_logic_zero_flag_witness :
    Chip8.execute_instruction addSample (.ins8XY1 0 1)
      = some { addSample with v_reg :=
          (addSample.v_reg.setD 0 (addSample.v_reg.getD 0 0 ||| addSample.v_reg.getD 1 0)).setD 0xF 0 } :=
  (ins8XY123_logic_zero_flag addSample 0 1 (by decide) (by decide) (by decide)).1

/-- C8 (amended): FX29 sets the index register to VX * 5 with no masking
of the low nibble; this coincides with the glyph address (VX mod 16) * 5
exactly when VX < 16. -/
theorem insFX29_font_address (c : Chip8) (x : Nat)
    (hv : c.v_reg.size = 16) (hx : x < 16) :
    Chip8.execute_instruction c (.insFX29 x)
      = some { c with i_reg := (c.v_reg.getD x 0 * 5) % 65536 }
    ∧ (c.v_reg.getD x 0 < 16 →
        (c.v_reg.getD x 0 * 5) % 65536 = (c.v_reg.getD x 0 % 16) * 5) := by
  constructor
  · have rx := readV_eq c x (by omega)
    simp [Chip8.execute_instruction, rx]
  · intro h
    have h2 : c.v_reg.getD x 0 % 16 = c.v_reg.getD x 0 := Nat.mod_eq_of_lt h
    rw [h2]
    omega

/-- State with V0 = 16 for the C8 counterexample. -/
def fontSample : Chip8 :=
  { Chip8.new 888 with v_reg := (Array.mkArray 16 0).setD 0 16 }

/-- C8 counterexample: with V0 = 16, FX29 sets the index register to 80,
not (V0 mod 16) * 5 = 0 as the claim states. -/
theorem insFX29_mod16_counterexample :
    (Chip8.execute_instruction fontSample (.insFX29 0)).map Chip8.i_reg = some 80
    ∧ (fontSample.v_reg.getD 0 0 % 16) * 5 = 0
    ∧ (80 : Nat) ≠ 0 := by
  refine ⟨?_, by decide, by decide⟩
  decide

/-- C8 witness: FX29 at a concrete in-range state (V0 = 0xFE masks to no
glyph but the equality conjunct needs VX < 16; apply at fontSample where
VX = 16 fails the guard, so use the base machine where V0 = 0). -/
theorem insFX29_font_address_witness :
    Chip8.execute_instruction (Chip8.new 888) (.insFX29 0)
      = some { Chip8.new 888 with i_reg := ((Chip8.new 888).v_reg.getD 0 0 * 5) % 65536 } :=
  (insFX29_font_address (Chip8.new 888) 0 (by decide) (by decide)).1

/-- Helper: reading back the cell a defaulted write targeted. -/
theorem getD_setD_self {α : Type} (a : Array α) (i : Nat) (v d : α)
    (h : i < a.size) : (a.setD i v).getD i d = v := by
  simp [Array.setD, h, Array.getD, Array.size_set]

/-- Helper: a defaulted write leaves every other cell unchanged. -/
theorem getD_setD_ne {α : Type} (a : Array α) (i j : Nat) (v d : α)
    (hne : j ≠ i) : (a.setD i v).getD j d = a.getD j d := by
  by_cases hi : i < a.size
  · simp only [Array.setD, hi, dite_true, if_true]
    by_cases hj : j < a.size
    · simp [Array.getD, hj, Array.size_set, Array.getElem_set]
      intro h
      exact absurd h (by omega)
    · simp [Array.getD, hj, Array.size_set]
  · simp [Array.setD, hi]

/-- Helper: an out-of-bounds defaulted write is a no-op. -/
theorem setD_oob {α : Type} (a : Array α) (i : Nat) (v : α)
    (h : ¬ i < a.size) : a.setD i v = a := by
  unfold Array.setD
  rw [dif_neg h]

/-- Helper: every cell of a replicated array holds the fill value. -/
theorem getD_mkArray {α : Type} (n : Nat) (v : α) (i : Nat) (d : α)
    (h : i < n) : (Array.mkArray n v).getD i d = v := by
  simp [Array.getD, Array.size_mkArray, h, Array.getElem_mkArray]

/-- Helper: the block-copy fold preserves the destination size. -/
theorem copyInto_aux_size (offset : Nat) (src : Array Nat) :
    ∀ (n : Nat) (dst : Array Nat),
      ((List.range n).foldl
        (fun m k => m.setD (offset + k) (src.getD k 0)) dst).size
      = dst.size := by
  intro n
  induction n with
  | zero => intro dst; rfl
  | succ n ih =>
      intro dst
      rw [List.range_succ, List.foldl_append]
      simp only [List.foldl_cons, List.foldl_nil]
      rw [Array.size_setD, ih]

/-- Helper: copyInto preserves the destination size. -/
theorem copyInto_size (dst : Array Nat) (offset : Nat) (src : Array Nat) :
    (copyInto dst offset src).size = dst.size :=
  copyInto_aux_size offset src src.size dst

/-- Helper: cellwise description of the block-copy fold. -/
theorem copyInto_aux_getD (offset : Nat) (src : Array Nat) :
    ∀ (n : Nat) (dst : Array Nat) (idx : Nat),
      ((List.range n).foldl
        (fun m k => m.setD (offset + k) (src.getD k 0)) dst).getD idx 0
      = if offset ≤ idx ∧ idx < offset + n ∧ idx < dst.size
        then src.getD (idx - offset) 0 else dst.getD idx 0 := by
  intro n
  induction n with
  | zero =>
      intro dst idx
      rw [if_neg (by omega)]
      rfl
  | succ n ih =>
      intro dst idx
      rw [List.range_succ, List.foldl_append]
      simp only [List.foldl_cons, List.foldl_nil]
      by_cases hat : idx = offset + n
      · subst hat
        by_cases hsz : offset + n < dst.size
        · rw [getD_setD_self _ _ _ _
            (by rw [copyInto_aux_size offset src n dst]; omega)]
          rw [if_pos ⟨by omega, by omega, hsz⟩,
            show offset + n - offset = n by omega]
        · have hno := setD_oob
            ((List.range n).foldl
              (fun m k => m.setD (offset + k) (src.getD k 0)) dst)
            (offset + n) (src.getD n 0)
            (by rw [copyInto_aux_size offset src n dst]; omega)
          rw [hno, ih dst (offset + n), if_neg (by omega), if_neg (by omega)]
      · rw [getD_setD_ne _ _ _ _ _ hat, ih dst idx]
        by_cases hc : offset ≤ idx ∧ idx < offset + n ∧ idx < dst.size
        · rw [if_pos hc, if_pos ⟨hc.1, by omega, hc.2.2⟩]
        · rw [if_neg hc, if_neg (fun h => hc ⟨h.1, by omega, h.2.2⟩)]

/-- Helper: cellwise description of copyInto — positions in the copied
window read from the source, all others keep the destination value. -/
theorem copyInto_getD (dst : Array Nat) (offset : Nat) (src : Array Nat)
    (idx : Nat) :
    (copyInto dst offset src).getD idx 0
    = if offset ≤ idx ∧ idx < offset + src.size ∧ idx < dst.size
      then src.getD (idx - offset) 0 else dst.getD idx 0 :=
  copyInto_aux_getD offset src src.size dst idx

set_option maxRecDepth 100000 in
/-- C9 (amended): reset restores the program counter to 512, zeroes the
memory and reloads the 80-byte font table at offset 0, and clears
registers, index register, timers, stack, stack pointer, keypad, display
and redraw flag — everything the initial configuration has — without
reloading a previously loaded program; the rng seed and the key-wait
latch are left unchanged (the source does not reassign them). -/
theorem reset_restores_initial_except_latch (c : Chip8) :
    Chip8.reset c
      = { Chip8.new c.rng_seed with
          memory := copyInto (Array.mkArray MEMORY_SIZE 0) 0 FONTSET,
          wait_for_key_release := c.wait_for_key_release }
    ∧ (∀ a, a < 80 → (Chip8.reset c).memory.getD a 0 = FONTSET.getD a 0)
    ∧ (∀ a, 80 ≤ a → a < 4096 → (Chip8.reset c).memory.getD a 0 = 0) := by
  have hfs : FONTSET.size = 80 := by decide
  have hm4 : MEMORY_SIZE = 4096 := rfl
  have hms : (Array.mkArray MEMORY_SIZE (0 : Nat)).size = 4096 := by
    rw [Array.size_mkArray]; exact hm4
  have h1 : Chip8.reset c
      = { Chip8.new c.rng_seed with
          memory := copyInto (Array.mkArray MEMORY_SIZE 0) 0 FONTSET,
          wait_for_key_release := c.wait_for_key_release } := by
    cases c; rfl
  have hmem : (Chip8.reset c).memory
      = copyInto (Array.mkArray MEMORY_SIZE 0) 0 FONTSET := by
    rw [h1]
  refine ⟨h1, fun a ha => ?_, fun a ha1 ha2 => ?_⟩
  · rw [hmem, copyInto_getD, if_pos ⟨Nat.zero_le a, by omega, by omega⟩,
      Nat.sub_zero]
  · rw [hmem, copyInto_getD, if_neg (by omega)]
    exact getD_mkArray _ _ _ _ (by omega)

/-- State with the key-wait latch set, for the C9 counterexample. -/
def latchSample : Chip8 :=
  { Chip8.new 888 with wait_for_key_release := some 3 }

/-- C9 counterexample: reset does not return the key-wait latch to its
initial unset value — a latched key index survives reset. -/
theorem reset_latch_counterexample :
    (Chip8.reset latchSample).wait_for_key_release = some 3
    ∧ (Chip8.new 888).wait_for_key_release = none
    ∧ some 3 ≠ (none : Option Nat) :=
  ⟨rfl, rfl, by decide⟩

set_option maxHeartbeats 1000000 in
/-- C10: a return (00EE) on an empty call stack is a fault: the
stack-pointer decrement wraps the 16-bit counter to 65535 and the stack
read goes out of bounds (modelled none); only the call (2NNN) carries an
explicit overflow guard; and the empty-stack return is reachable at the
public step interface, where tick faults on a fetched 0x00EE opcode. -/
theorem ins00EE_empty_stack_fault :
    (∀ c : Chip8, c.stack_pointer = 0 → c.stack.size = 16 →
      Chip8.execute_instruction c .ins00EE = none)
    ∧ (∀ (c : Chip8) (nnn : Nat), 16 ≤ c.stack_pointer →
      Chip8.execute_instruction c (.ins2NNN nnn) = none)
    ∧ (∀ c : Chip8, c.pc + 1 < c.memory.size →
        c.memory.getD c.pc 0 = 0x00 → c.memory.getD (c.pc + 1) 0 = 0xEE →
        c.stack_pointer = 0 → c.stack.size = 16 →
        Chip8.tick c = none) := by
  have h00EE : ∀ c : Chip8, c.stack_pointer = 0 → c.stack.size = 16 →
      Chip8.execute_instruction c .ins00EE = none := by
    intro c hsp hsz
    have hnone : c.stack[(65535 : Nat)]? = none := by
      rw [Array.getElem?_eq_none_iff]
      omega
    simp [Chip8.execute_instruction, hsp, hnone]
  refine ⟨h00EE, ?_, ?_⟩
  · intro c nnn h
    simp [Chip8.execute_instruction, STACK_SIZE, h]
  · intro c hb hm1 hm2 hsp hsz
    have hfetch : Chip8.fetch_opcode c
        = some (0xEE, { c with pc := (c.pc + 2) % 65536 }) := by
      have r1 := arr_read_eq c.memory c.pc 0 (by omega)
      have r2 := arr_read_eq c.memory (c.pc + 1) 0 (by omega)
      simp [Chip8.fetch_opcode, r1, r2, hm1, hm2]
    have hdec : Instruction.tryFrom 0xEE = .ok .ins00EE := rfl
    have hexec := h00EE { c with pc := (c.pc + 2) % 65536 } hsp hsz
    simp [Chip8.tick, hfetch, hdec, hexec]

/-- State whose next opcode is 0x00EE (pc steered to address 0 of a
two-byte memory image holding 0x00 0xEE), with an empty call stack, for
the C10 witness. -/
def emptyStackRetSample : Chip8 :=
  { Chip8.new 888 with memory := #[0x00, 0xEE], pc := 0 }

/-- C10 witness: at the concrete machine whose next opcode is 0x00EE
and whose stack is empty, a public step faults. -/
theorem ins00EE_empty_stack_fault_witness :
    Chip8.tick emptyStackRetSample = none :=
  ins00EE_empty_stack_fault.2.2 emptyStackRetSample (by decide) (by decide)
    (by decide) rfl (by decide)

/-- C2: under an in-bounds fetch, one step fetches the big-endian opcode
at pc and advances pc by 2 before anything else; when decoding fails,
tick returns that decode error and the state differs from the input
state only in the already-advanced program counter. -/
theorem tick_fetch_advance_decode_error (c : Chip8)
    (hb : c.pc + 1 < c.memory.size) :
    Chip8.fetch_opcode c
      = some (((c.memory.getD c.pc 0) <<< 8) ||| c.memory.getD (c.pc + 1) 0,
              { c with pc := (c.pc + 2) % 65536 })
    ∧ (∀ e : InstructionError,
        Instruction.tryFrom
            (((c.memory.getD c.pc 0) <<< 8) ||| c.memory.getD (c.pc + 1) 0)
          = .error e →
        Chip8.tick c = some (.error e, { c with pc := (c.pc + 2) % 65536 })) := by
  have r1 := arr_read_eq c.memory c.pc 0 (by omega)
  have r2 := arr_read_eq c.memory (c.pc + 1) 0 (by omega)
  have hf : Chip8.fetch_opcode c
      = some (((c.memory.getD c.pc 0) <<< 8) ||| c.memory.getD (c.pc + 1) 0,
              { c with pc := (c.pc + 2) % 65536 }) := by
    simp only [Chip8.fetch_opcode, r1, r2, Option.bind_eq_bind,
      Option.some_bind, Option.pure_def]
  refine ⟨hf, fun e he => ?_⟩
  simp only [Chip8.tick, hf, Option.bind_eq_bind, Option.some_bind]
  rw [he]
  rfl

/-- Machine with a two-byte zero memory image, steered to fetch from
address 0, for the C2 witness. -/
def fetchSample : Chip8 := { Chip8.new 888 with memory := #[0x00, 0x00], pc := 0 }

/-- C2 witness: at this machine the fetched opcode is 0x0000, which
fails to decode, and tick returns UnknownOpcode 0 having advanced pc
from 0 to 2 and changed nothing else. -/
theorem tick_fetch_advance_decode_error_witness :
    Chip8.tick fetchSample
      = some (.error (.unknownOpcode 0),
              { fetchSample with pc := (fetchSample.pc + 2) % 65536 }) :=
  (tick_fetch_advance_decode_error fetchSample (by decide)).2
    (.unknownOpcode 0) rfl

/-- Helper: the FX0A key scan finds nothing when no key at or after the
start index is pressed. -/
theorem firstPressed_none (keypad : Array Bool) :
    ∀ (fuel i : Nat), keypad.size ≤ i + fuel →
    (∀ j, i ≤ j → j < keypad.size → keypad.getD j false = false) →
    Chip8.firstPressed keypad i = none := by
  intro fuel
  induction fuel with
  | zero =>
      intro i hfu h
      rw [Chip8.firstPressed]
      rw [if_neg (by omega)]
  | succ fuel ih =>
      intro i hfu h
      rw [Chip8.firstPressed]
      by_cases hlt : i < keypad.size
      · rw [if_pos hlt, if_neg (by simp [h i le_rfl hlt]),
          ih (i + 1) (by omega) (fun j hj hjs => h j (by omega) hjs)]
      · rw [if_neg hlt]

/-- Helper: the FX0A key scan returns the lowest pressed key index. -/
theorem firstPressed_some (keypad : Array Bool) (k : Nat) :
    ∀ (fuel i : Nat), keypad.size ≤ i + fuel →
    i ≤ k → k < keypad.size → keypad.getD k false = true →
    (∀ j, i ≤ j → j < k → keypad.getD j false = false) →
    Chip8.firstPressed keypad i = some k := by
  intro fuel
  induction fuel with
  | zero =>
      intro i hfu hik hk hkt hbelow
      omega
  | succ fuel ih =>
      intro i hfu hik hk hkt hbelow
      rw [Chip8.firstPressed]
      rw [if_pos (by omega)]
      by_cases hik2 : i = k
      · subst hik2
        rw [if_pos hkt]
      · rw [if_neg (by simp [hbelow i le_rfl (by omega)]),
          ih (i + 1) (by omega) (by omega) hk hkt
            (fun j hj hjk => hbelow j (by omega) hjk)]

/-- C4: FX0A with no key pressed rewinds pc by 2 (cancelling the fetch
advance) and changes no register or latch; with a key pressed it stores
the lowest pressed key index into VX, latches that index, and leaves pc
alone; at the step level, a fetched FX0A with no key pressed makes tick
a net no-op. -/
theorem insFX0A_keywait (c : Chip8) (x : Nat)
    (hk : c.keypad.size = 16) (hv : c.v_reg.size = 16) (hx : x < 16)
    (hpc1 : 2 ≤ c.pc) (hpc2 : c.pc < 65536) :
    ((∀ j, j < 16 → c.keypad.getD j false = false) →
      Chip8.execute_instruction c (.insFX0A x) = some { c with pc := c.pc - 2 })
    ∧ (∀ k, k < 16 → c.keypad.getD k false = true →
        (∀ j, j < k → c.keypad.getD j false = false) →
        Chip8.execute_instruction c (.insFX0A x)
          = some { c with wait_for_key_release := some k,
                          v_reg := c.v_reg.setD x k })
    ∧ (c.pc + 1 < c.memory.size →
        Instruction.tryFrom
            (((c.memory.getD c.pc 0) <<< 8) ||| c.memory.getD (c.pc + 1) 0)
          = .ok (.insFX0A x) →
        (∀ j, j < 16 → c.keypad.getD j false = false) →
        Chip8.tick c = some (.ok (), c)) := by
  have hnokey : (∀ j, j < 16 → c.keypad.getD j false = false) →
      Chip8.firstPressed c.keypad 0 = none := fun h =>
    firstPressed_none c.keypad c.keypad.size 0 (by omega)
      fun j _ hjs => h j (by omega)
  have harith : (c.pc + 65534) % 65536 = c.pc - 2 := by omega
  refine ⟨fun h => ?_, fun k hk16 hkt hbelow => ?_, fun hb hdec h => ?_⟩
  · simp [Chip8.execute_instruction, hnokey h, harith]
  · have hfp : Chip8.firstPressed c.keypad 0 = some k :=
      firstPressed_some c.keypad k c.keypad.size 0 (by omega) (by omega)
        (by omega) hkt fun j _ hjk => hbelow j hjk
    have hw := writeV_eq { c with wait_for_key_release := some k } x k
      (by simpa using by omega)
    simp [Chip8.execute_instruction, hfp, hw]
  · have hf := (tick_fetch_advance_decode_error c hb).1
    have hexec : Chip8.execute_instruction { c with pc := (c.pc + 2) % 65536 }
        (.insFX0A x) = some c := by
      have e1 : Chip8.execute_instruction { c with pc := (c.pc + 2) % 65536 }
          (.insFX0A x)
          = some { c with pc := ((c.pc + 2) % 65536 + 65536 - 2) % 65536 } := by
        simp only [Chip8.execute_instruction, hnokey h]
      rw [e1, show ((c.pc + 2) % 65536 + 65536 - 2) % 65536 = c.pc by omega]
    simp only [Chip8.tick, hf, Option.bind_eq_bind, Option.some_bind]
    rw [hdec]
    show (Chip8.execute_instruction { c with pc := (c.pc + 2) % 65536 }
        (Instruction.insFX0A x)).bind
        (fun c2 => some (Except.ok (), c2)) = some (Except.ok (), c)
    rw [hexec]
    rfl

/-- State with key 5 pressed, for the C4 witness. -/
def keySample : Chip8 :=
  { Chip8.new 888 with keypad := (Array.mkArray 16 false).setD 5 true }

/-- C4 witness: with key 5 pressed, FX0A stores 5 into V0 and latches 5;
with no key pressed at the fresh machine, FX0A rewinds pc to 0x1FE. -/
theorem insFX0A_keywait_witness :
    Chip8.execute_instruction keySample (.insFX0A 0)
      = some { keySample with wait_for_key_release := some 5,
                              v_reg := keySample.v_reg.setD 0 5 }
    ∧ Chip8.execute_instruction (Chip8.new 888) (.insFX0A 0)
      = some { Chip8.new 888 with pc := (Chip8.new 888).pc - 2 } :=
  ⟨(insFX0A_keywait keySample 0 (by decide) (by decide) (by decide)
      (by decide) (by decide)).2.1 5 (by decide) (by decide) (by decide),
   (insFX0A_keywait (Chip8.new 888) 0 (by decide) (by decide) (by decide)
      (by decide) (by decide)).1 (by decide)⟩

/-- Characterization of the DXYN inner column loop: starting at col, it
XORs the sprite row bits (most significant first) into screen row sy at
columns vx+col .. vx+min 8 (64-vx)-1 — clipping at the right edge — and
returns flag 1 exactly when some drawn 1-bit met an already-set pixel,
else the incoming flag. -/
theorem drawColsFrom_spec (spriteRow vx sy : Nat)
    (hvx : vx < 64) (hsy : sy < 32) :
    ∀ (fuel : Nat) (screen : Array Bool) (vf col : Nat), 8 ≤ col + fuel →
    screen.size = 2048 →
    (Chip8.drawColsFrom spriteRow vx sy screen vf col).1.size = 2048
    ∧ (∀ idx, idx < 2048 →
        (Chip8.drawColsFrom spriteRow vx sy screen vf col).1.getD idx false =
          if idx / 64 = sy ∧ vx + col ≤ idx % 64
              ∧ idx % 64 < vx + min 8 (64 - vx) then
            Bool.xor (screen.getD idx false)
              ((spriteRow &&& (128 >>> (idx % 64 - vx))) != 0)
          else screen.getD idx false)
    ∧ (Chip8.drawColsFrom spriteRow vx sy screen vf col).2 =
        (if ∃ cc, cc < min 8 (64 - vx) ∧ col ≤ cc
            ∧ ((spriteRow &&& (128 >>> cc)) != 0) = true
            ∧ screen.getD ((vx + cc) + sy * 64) false = true
         then 1 else vf) := by
  intro fuel
  induction fuel with
  | zero =>
    intro screen vf col hfu hsz
    have hlt : ¬ col < 8 := by omega
    have hstep : Chip8.drawColsFrom spriteRow vx sy screen vf col
        = (screen, vf) := by
      rw [Chip8.drawColsFrom]
      simp [hlt]
    rw [hstep]
    refine ⟨hsz, fun idx hidx => ?_, ?_⟩
    · rw [if_neg]
      rintro ⟨h1, h2, h3⟩
      omega
    · rw [if_neg]
      rintro ⟨cc, h1, h2, h3, h4⟩
      omega
  | succ fuel ih =>
    intro screen vf col hfu hsz
    by_cases hlt : col < 8
    · by_cases hge : 64 ≤ vx + col
      · have hstep : Chip8.drawColsFrom spriteRow vx sy screen vf col
            = (screen, vf) := by
          rw [Chip8.drawColsFrom]
          simp [hlt, hge]
        rw [hstep]
        refine ⟨hsz, fun idx hidx => ?_, ?_⟩
        · rw [if_neg]
          rintro ⟨h1, h2, h3⟩
          omega
        · rw [if_neg]
          rintro ⟨cc, h1, h2, h3, h4⟩
          omega
      · have hi0 : (vx + col) + sy * 64 < 2048 := by omega
        have hstep : Chip8.drawColsFrom spriteRow vx sy screen vf col
            = Chip8.drawColsFrom spriteRow vx sy
                (screen.setD ((vx + col) + sy * 64)
                  (Bool.xor (screen.getD ((vx + col) + sy * 64) false)
                    ((spriteRow &&& (128 >>> col)) != 0)))
                (if ((spriteRow &&& (128 >>> col)) != 0)
                      && screen.getD ((vx + col) + sy * 64) false
                 then 1 else vf)
                (col + 1) := by
          rw [Chip8.drawColsFrom]
          simp [hlt, hge]
        have hsz2 : (screen.setD ((vx + col) + sy * 64)
            (Bool.xor (screen.getD ((vx + col) + sy * 64) false)
              ((spriteRow &&& (128 >>> col)) != 0))).size = 2048 := by
          simp [Array.size_setD, hsz]
        obtain ⟨ih1, ih2, ih3⟩ := ih
          (screen.setD ((vx + col) + sy * 64)
            (Bool.xor (screen.getD ((vx + col) + sy * 64) false)
              ((spriteRow &&& (128 >>> col)) != 0)))
          (if ((spriteRow &&& (128 >>> col)) != 0)
                && screen.getD ((vx + col) + sy * 64) false
           then 1 else vf)
          (col + 1) (by omega) hsz2
        rw [hstep]
        refine ⟨ih1, fun idx hidx => ?_, ?_⟩
        · rw [ih2 idx hidx]
          by_cases hreg : idx / 64 = sy ∧ vx + col ≤ idx % 64
              ∧ idx % 64 < vx + min 8 (64 - vx)
          · rw [if_pos hreg]
            by_cases hat : idx % 64 = vx + col
            · have hidx0 : idx = (vx + col) + sy * 64 := by omega
              rw [if_neg (by omega)]
              rw [hidx0, getD_setD_self _ _ _ _ (by omega)]
              have hcc : ((vx + col) + sy * 64) % 64 - vx = col := by omega
              rw [hcc]
            · have hne : idx ≠ (vx + col) + sy * 64 := by omega
              rw [if_pos ⟨hreg.1, by omega, hreg.2.2⟩,
                getD_setD_ne _ _ _ _ _ hne]
          · rw [if_neg hreg, if_neg (fun h => hreg ⟨h.1, by omega, h.2.2⟩)]
            have hne : idx ≠ (vx + col) + sy * 64 := by
              intro h
              exact hreg ⟨by omega, by omega, by omega⟩
            rw [getD_setD_ne _ _ _ _ _ hne]
        · rw [ih3]
          have hscr : ∀ cc, cc < min 8 (64 - vx) → col + 1 ≤ cc →
              (screen.setD ((vx + col) + sy * 64)
                (Bool.xor (screen.getD ((vx + col) + sy * 64) false)
                  ((spriteRow &&& (128 >>> col)) != 0))).getD
                ((vx + cc) + sy * 64) false
              = screen.getD ((vx + cc) + sy * 64) false := by
            intro cc h1 h2
            exact getD_setD_ne _ _ _ _ _ (by omega)
          by_cases hc : ((spriteRow &&& (128 >>> col)) != 0) = true
              ∧ screen.getD ((vx + col) + sy * 64) false = true
          · have hvf2 : (if ((spriteRow &&& (128 >>> col)) != 0)
                  && screen.getD ((vx + col) + sy * 64) false
                then 1 else vf) = 1 := by
              rw [if_pos (by simp [hc.1, hc.2])]
            rw [hvf2]
            have hex : ∃ cc, cc < min 8 (64 - vx) ∧ col ≤ cc
                ∧ ((spriteRow &&& (128 >>> cc)) != 0) = true
                ∧ screen.getD ((vx + cc) + sy * 64) false = true :=
              ⟨col, by omega, le_rfl, hc.1, hc.2⟩
            rw [if_pos hex]
            split <;> rfl
          · have hvf2 : (if ((spriteRow &&& (128 >>> col)) != 0)
                  && screen.getD ((vx + col) + sy * 64) false
                then 1 else vf) = vf := by
              rw [if_neg]
              intro hand
              rcases Bool.and_eq_true_iff.mp hand with ⟨hb1, hb2⟩
              exact hc ⟨hb1, hb2⟩
            rw [hvf2]
            have hiff : (∃ cc, cc < min 8 (64 - vx) ∧ col + 1 ≤ cc
                ∧ ((spriteRow &&& (128 >>> cc)) != 0) = true
                ∧ (screen.setD ((vx + col) + sy * 64)
                    (Bool.xor (screen.getD ((vx + col) + sy * 64) false)
                      ((spriteRow &&& (128 >>> col)) != 0))).getD
                    ((vx + cc) + sy * 64) false = true)
                ↔ (∃ cc, cc < min 8 (64 - vx) ∧ col ≤ cc
                ∧ ((spriteRow &&& (128 >>> cc)) != 0) = true
                ∧ screen.getD ((vx + cc) + sy * 64) false = true) := by
              constructor
              · rintro ⟨cc, h1, h2, h3, h4⟩
                rw [hscr cc h1 h2] at h4
                exact ⟨cc, h1, by omega, h3, h4⟩
              · rintro ⟨cc, h1, h2, h3, h4⟩
                have hcc : col + 1 ≤ cc := by
                  rcases Nat.eq_or_lt_of_le h2 with he | hl
                  · exact absurd ⟨by rw [← he] at h3; exact h3,
                      by rw [← he] at h4; exact h4⟩ hc
                  · omega
                exact ⟨cc, h1, hcc, h3, by rw [hscr cc h1 hcc]; exact h4⟩
            rw [if_congr hiff rfl rfl]
    · have hstep : Chip8.drawColsFrom spriteRow vx sy screen vf col
          = (screen, vf) := by
        rw [Chip8.drawColsFrom]
        simp [hlt]
      rw [hstep]
      refine ⟨hsz, fun idx hidx => ?_, ?_⟩
      · rw [if_neg]
        rintro ⟨h1, h2, h3⟩
        omega
      · rw [if_neg]
        rintro ⟨cc, h1, h2, h3, h4⟩
        omega

/-- Characterization of the DXYN outer row loop: starting at row, it
draws sprite rows row .. min n (32-vy) - 1 — clipping at the bottom
edge — each XORed into its screen row, accumulates the collision flag,
and sets the draw flag exactly when it draws at least one row. -/
theorem drawRows_spec (mem : Array Nat) (iReg vx vy n : Nat)
    (hvx : vx < 64) (hvy : vy < 32) :
    ∀ (fuel : Nat) (screen : Array Bool) (vf : Nat) (df : Bool) (row : Nat),
      n ≤ row + fuel →
      screen.size = 2048 →
      (∀ r, row ≤ r → r < min n (32 - vy) → (iReg + r) % 65536 < mem.size) →
      ∃ out, Chip8.drawRows mem iReg vx vy n screen vf df row = some out
      ∧ out.1.size = 2048
      ∧ (∀ idx, idx < 2048 → out.1.getD idx false =
          if vy + row ≤ idx / 64 ∧ idx / 64 < vy + min n (32 - vy)
              ∧ vx ≤ idx % 64 ∧ idx % 64 < vx + min 8 (64 - vx) then
            Bool.xor (screen.getD idx false)
              ((mem.getD ((iReg + (idx / 64 - vy)) % 65536) 0
                  &&& (128 >>> (idx % 64 - vx))) != 0)
          else screen.getD idx false)
      ∧ out.2.1 = (if ∃ r, r < min n (32 - vy) ∧ row ≤ r
            ∧ ∃ cc, cc < min 8 (64 - vx)
            ∧ ((mem.getD ((iReg + r) % 65536) 0 &&& (128 >>> cc)) != 0) = true
            ∧ screen.getD ((vx + cc) + (vy + r) * 64) false = true
          then 1 else vf)
      ∧ out.2.2 = (if row < min n (32 - vy) then true else df) := by
  intro fuel
  induction fuel with
  | zero =>
    intro screen vf df row hfu hsz hmem
    have hrow : ¬ row < n := by omega
    have hstep : Chip8.drawRows mem iReg vx vy n screen vf df row
        = some (screen, vf, df) := by
      rw [Chip8.drawRows]
      simp [hrow]
    refine ⟨(screen, vf, df), hstep, hsz, fun idx hidx => ?_, ?_, ?_⟩
    · rw [if_neg]
      rintro ⟨h1, h2, h3, h4⟩
      omega
    · rw [if_neg]
      rintro ⟨r, h1, h2, h3⟩
      omega
    · rw [if_neg (by omega)]
  | succ fuel ih =>
    intro screen vf df row hfu hsz hmem
    by_cases hrow : row < n
    · by_cases hclip : 32 ≤ vy + row
      · have hstep : Chip8.drawRows mem iReg vx vy n screen vf df row
            = some (screen, vf, df) := by
          rw [Chip8.drawRows]
          simp [hrow, hclip]
        refine ⟨(screen, vf, df), hstep, hsz, fun idx hidx => ?_, ?_, ?_⟩
        · rw [if_neg]
          rintro ⟨h1, h2, h3, h4⟩
          omega
        · rw [if_neg]
          rintro ⟨r, h1, h2, h3⟩
          omega
        · rw [if_neg (by omega)]
      · have hrowmin : row < min n (32 - vy) := by omega
        have hbound : (iReg + row) % 65536 < mem.size := hmem row le_rfl hrowmin
        cases heq : mem[(iReg + row) % 65536]? with
        | none =>
          rw [arr_read_eq mem ((iReg + row) % 65536) 0 hbound] at heq
          exact absurd heq (by simp)
        | some spriteRow =>
          have hsprite : mem.getD ((iReg + row) % 65536) 0 = spriteRow := by
            have hr := arr_read_eq mem ((iReg + row) % 65536) 0 hbound
            rw [hr] at heq
            exact Option.some.inj heq
          obtain ⟨csz, cpt, cvf⟩ :=
            drawColsFrom_spec spriteRow vx (vy + row) hvx (by omega) 8
              screen vf 0 (by omega) hsz
          obtain ⟨out, hout, osz, opt, ovf, odf⟩ :=
            ih (Chip8.drawColsFrom spriteRow vx (vy + row) screen vf 0).1
              (Chip8.drawColsFrom spriteRow vx (vy + row) screen vf 0).2
              true (row + 1) (by omega) csz
              (fun r h1 h2 => hmem r (by omega) h2)
          have hstep : Chip8.drawRows mem iReg vx vy n screen vf df row
              = Chip8.drawRows mem iReg vx vy n
                  (Chip8.drawColsFrom spriteRow vx (vy + row) screen vf 0).1
                  (Chip8.drawColsFrom spriteRow vx (vy + row) screen vf 0).2
                  true (row + 1) := by
            rw [Chip8.drawRows]
            simp [hrow, hclip, heq]
          refine ⟨out, by rw [hstep]; exact hout, osz,
            fun idx hidx => ?_, ?_, ?_⟩
          · rw [opt idx hidx]
            by_cases hT : vy + row ≤ idx / 64
                ∧ idx / 64 < vy + min n (32 - vy)
                ∧ vx ≤ idx % 64 ∧ idx % 64 < vx + min 8 (64 - vx)
            · rw [if_pos hT]
              by_cases hfirst : idx / 64 = vy + row
              · rw [if_neg (by omega)]
                rw [cpt idx hidx, if_pos ⟨hfirst, hT.2.2.1, hT.2.2.2⟩]
                have hr0 : idx / 64 - vy = row := by omega
                rw [hr0, hsprite]
              · rw [if_pos ⟨by omega, hT.2.1, hT.2.2.1, hT.2.2.2⟩]
                rw [cpt idx hidx, if_neg (fun h => hfirst h.1)]
            · rw [if_neg hT,
                if_neg (fun h => hT ⟨by omega, h.2.1, h.2.2.1, h.2.2.2⟩)]
              rw [cpt idx hidx, if_neg]
              rintro ⟨h1, h2, h3⟩
              exact hT ⟨by omega, by omega, h2, h3⟩
          · rw [ovf]
            have hcolsAt : ∀ r cc, row + 1 ≤ r → r < min n (32 - vy) →
                cc < min 8 (64 - vx) →
                (Chip8.drawColsFrom spriteRow vx (vy + row) screen vf 0).1.getD
                  ((vx + cc) + (vy + r) * 64) false
                = screen.getD ((vx + cc) + (vy + r) * 64) false := by
              intro r cc h1 h2 h3
              rw [cpt _ (by omega), if_neg]
              rintro ⟨hh1, hh2, hh3⟩
              omega
            have hiff2 : (∃ r, r < min n (32 - vy) ∧ row + 1 ≤ r
                ∧ ∃ cc, cc < min 8 (64 - vx)
                ∧ ((mem.getD ((iReg + r) % 65536) 0
                    &&& (128 >>> cc)) != 0) = true
                ∧ (Chip8.drawColsFrom spriteRow vx (vy + row) screen vf
                    0).1.getD ((vx + cc) + (vy + r) * 64) false = true)
                ↔ (∃ r, r < min n (32 - vy) ∧ row + 1 ≤ r
                ∧ ∃ cc, cc < min 8 (64 - vx)
                ∧ ((mem.getD ((iReg + r) % 65536) 0
                    &&& (128 >>> cc)) != 0) = true
                ∧ screen.getD ((vx + cc) + (vy + r) * 64) false = true) := by
              constructor
              · rintro ⟨r, h1, h2, cc, h3, h4, h5⟩
                rw [hcolsAt r cc h2 h1 h3] at h5
                exact ⟨r, h1, h2, cc, h3, h4, h5⟩
              · rintro ⟨r, h1, h2, cc, h3, h4, h5⟩
                exact ⟨r, h1, h2, cc, h3, h4,
                  by rw [hcolsAt r cc h2 h1 h3]; exact h5⟩
            rw [if_congr hiff2 rfl rfl, cvf]
            by_cases hcol : ∃ cc, cc < min 8 (64 - vx) ∧ 0 ≤ cc
                ∧ ((spriteRow &&& (128 >>> cc)) != 0) = true
                ∧ screen.getD ((vx + cc) + (vy + row) * 64) false = true
            · rw [if_pos hcol]
              obtain ⟨cc, hc1, hc2, hc3, hc4⟩ := hcol
              have hP0 : ∃ r, r < min n (32 - vy) ∧ row ≤ r
                  ∧ ∃ cc2, cc2 < min 8 (64 - vx)
                  ∧ ((mem.getD ((iReg + r) % 65536) 0
                      &&& (128 >>> cc2)) != 0) = true
                  ∧ screen.getD ((vx + cc2) + (vy + r) * 64) false = true :=
                ⟨row, hrowmin, le_rfl, cc, hc1,
                  by rw [hsprite]; exact hc3, hc4⟩
              rw [if_pos hP0]
              split <;> rfl
            · rw [if_neg hcol]
              have hiff3 : (∃ r, r < min n (32 - vy) ∧ row + 1 ≤ r
                  ∧ ∃ cc, cc < min 8 (64 - vx)
                  ∧ ((mem.getD ((iReg + r) % 65536) 0
                      &&& (128 >>> cc)) != 0) = true
                  ∧ screen.getD ((vx + cc) + (vy + r) * 64) false = true)
                  ↔ (∃ r, r < min n (32 - vy) ∧ row ≤ r
                  ∧ ∃ cc, cc < min 8 (64 - vx)
                  ∧ ((mem.getD ((iReg + r) % 65536) 0
                      &&& (128 >>> cc)) != 0) = true
                  ∧ screen.getD ((vx + cc) + (vy + r) * 64) false = true) := by
                constructor
                · rintro ⟨r, h1, h2, hcc⟩
                  exact ⟨r, h1, by omega, hcc⟩
                · rintro ⟨r, h1, h2, cc, h3, h4, h5⟩
                  have hr1 : row + 1 ≤ r := by
                    rcases Nat.eq_or_lt_of_le h2 with he | hl
                    · subst he
                      rw [hsprite] at h4
                      exact absurd ⟨cc, h3, Nat.zero_le cc, h4, h5⟩ hcol
                    · omega
                  exact ⟨r, h1, hr1, cc, h3, h4, h5⟩
              rw [if_congr hiff3 rfl rfl]
          · rw [odf, if_pos hrowmin]
            split <;> rfl
    · have hstep : Chip8.drawRows mem iReg vx vy n screen vf df row
          = some (screen, vf, df) := by
        rw [Chip8.drawRows]
        simp [hrow]
      refine ⟨(screen, vf, df), hstep, hsz, fun idx hidx => ?_, ?_, ?_⟩
      · rw [if_neg]
        rintro ⟨h1, h2, h3, h4⟩
        omega
      · rw [if_neg]
        rintro ⟨r, h1, h2, h3⟩
        omega
      · rw [if_neg (by omega)]

/-- C3: the DXYN draw starts at the register coordinates reduced mod 64
and 32, reads up to n sprite rows from memory at the index register,
tests each row's 8 bits most significant first, clips at the right and
bottom edges (no intra-sprite wraparound), XORs every drawn bit into the
framebuffer, zeroes VF first and then sets it to 1 exactly when some
drawn 1-bit lands on an already-set pixel, and sets the redraw flag
exactly when at least one row is drawn; nothing else changes. -/
theorem insDXYN_draw (c : Chip8) (x y n : Nat)
    (hv : c.v_reg.size = 16) (hx : x < 16) (hy : y < 16)
    (hscr : c.screen.size = 2048) (hmem : c.memory.size = 4096)
    (hi : c.i_reg + n ≤ 4096) :
    ∃ c3, Chip8.execute_instruction c (.insDXYN x y n) = some c3
    ∧ c3.memory = c.memory ∧ c3.pc = c.pc ∧ c3.i_reg = c.i_reg
    ∧ c3.delay_timer = c.delay_timer ∧ c3.sound_timer = c.sound_timer
    ∧ c3.stack = c.stack ∧ c3.stack_pointer = c.stack_pointer
    ∧ c3.keypad = c.keypad ∧ c3.rng_seed = c.rng_seed
    ∧ c3.wait_for_key_release = c.wait_for_key_release
    ∧ c3.v_reg = (c.v_reg.setD 0xF 0).setD 0xF
        (if ∃ r, r < min n (32 - c.v_reg.getD y 0 % 32)
            ∧ ∃ cc, cc < min 8 (64 - c.v_reg.getD x 0 % 64)
            ∧ ((c.memory.getD (c.i_reg + r) 0 &&& (128 >>> cc)) != 0) = true
            ∧ c.screen.getD ((c.v_reg.getD x 0 % 64 + cc)
                + (c.v_reg.getD y 0 % 32 + r) * 64) false = true
         then 1 else 0)
    ∧ c3.draw_flag = (if 0 < n then true else c.draw_flag)
    ∧ c3.screen.size = 2048
    ∧ (∀ idx, idx < 2048 → c3.screen.getD idx false =
        if c.v_reg.getD y 0 % 32 ≤ idx / 64
            ∧ idx / 64 < c.v_reg.getD y 0 % 32 + min n (32 - c.v_reg.getD y 0 % 32)
            ∧ c.v_reg.getD x 0 % 64 ≤ idx % 64
            ∧ idx % 64 < c.v_reg.getD x 0 % 64 + min 8 (64 - c.v_reg.getD x 0 % 64) then
          Bool.xor (c.screen.getD idx false)
            ((c.memory.getD (c.i_reg + (idx / 64 - c.v_reg.getD y 0 % 32)) 0
                &&& (128 >>> (idx % 64 - c.v_reg.getD x 0 % 64))) != 0)
        else c.screen.getD idx false) := by
  have hvx : c.v_reg.getD x 0 % 64 < 64 := by omega
  have hvy : c.v_reg.getD y 0 % 32 < 32 := by omega
  obtain ⟨out, hout, osz, opt, ovf, odf⟩ :=
    drawRows_spec c.memory c.i_reg (c.v_reg.getD x 0 % 64)
      (c.v_reg.getD y 0 % 32) n hvx hvy n c.screen 0 c.draw_flag 0
      (by omega) hscr
      (fun r h1 h2 => by
        have : c.i_reg + r < 4096 := by omega
        omega)
  have hexec : Chip8.execute_instruction c (.insDXYN x y n)
      = some { c with
          v_reg := (c.v_reg.setD 0xF 0).setD 0xF out.2.1,
          screen := out.1,
          draw_flag := out.2.2 } := by
    have rx := readV_eq c x (by omega)
    have ry := readV_eq c y (by omega)
    have w1 := writeV_eq c 0xF 0 (by omega)
    have w2 := writeV_eq { c with v_reg := c.v_reg.setD 0xF 0 } 0xF out.2.1
      (by simp only [Array.size_setD]; omega)
    simp only [Chip8.execute_instruction, rx, ry, Option.bind_eq_bind,
      Option.some_bind, SCREEN_WIDTH, SCREEN_HEIGHT, w1]
    rw [hout]
    simp only [Option.some_bind, w2]
  refine ⟨_, hexec, rfl, rfl, rfl, rfl, rfl, rfl, rfl, rfl, rfl, rfl,
    ?_, ?_, osz, ?_⟩
  · have hiffP : (∃ r, r < min n (32 - c.v_reg.getD y 0 % 32) ∧ 0 ≤ r
        ∧ ∃ cc, cc < min 8 (64 - c.v_reg.getD x 0 % 64)
        ∧ ((c.memory.getD ((c.i_reg + r) % 65536) 0 &&& (128 >>> cc)) != 0) = true
        ∧ c.screen.getD ((c.v_reg.getD x 0 % 64 + cc)
            + (c.v_reg.getD y 0 % 32 + r) * 64) false = true)
        ↔ (∃ r, r < min n (32 - c.v_reg.getD y 0 % 32)
        ∧ ∃ cc, cc < min 8 (64 - c.v_reg.getD x 0 % 64)
        ∧ ((c.memory.getD (c.i_reg + r) 0 &&& (128 >>> cc)) != 0) = true
        ∧ c.screen.getD ((c.v_reg.getD x 0 % 64 + cc)
            + (c.v_reg.getD y 0 % 32 + r) * 64) false = true) := by
      constructor
      · rintro ⟨r, h1, h2, hcc⟩
        have hmr : (c.i_reg + r) % 65536 = c.i_reg + r :=
          Nat.mod_eq_of_lt (by omega)
        rw [hmr] at hcc
        exact ⟨r, h1, hcc⟩
      · rintro ⟨r, h1, hcc⟩
        have hmr : (c.i_reg + r) % 65536 = c.i_reg + r :=
          Nat.mod_eq_of_lt (by omega)
        rw [← hmr] at hcc
        exact ⟨r, h1, Nat.zero_le r, hcc⟩
    rw [ovf, if_congr hiffP rfl rfl]
  · rw [odf, if_congr (show 0 < min n (32 - c.v_reg.getD y 0 % 32) ↔ 0 < n
      by omega) rfl rfl]
  · intro idx hidx
    by_cases hT : c.v_reg.getD y 0 % 32 ≤ idx / 64
        ∧ idx / 64 < c.v_reg.getD y 0 % 32 + min n (32 - c.v_reg.getD y 0 % 32)
        ∧ c.v_reg.getD x 0 % 64 ≤ idx % 64
        ∧ idx % 64 < c.v_reg.getD x 0 % 64
            + min 8 (64 - c.v_reg.getD x 0 % 64)
    · rw [if_pos hT, opt idx hidx,
        if_pos ⟨by omega, hT.2.1, hT.2.2.1, hT.2.2.2⟩]
      have hmr : (c.i_reg + (idx / 64 - c.v_reg.getD y 0 % 32)) % 65536
          = c.i_reg + (idx / 64 - c.v_reg.getD y 0 % 32) :=
        Nat.mod_eq_of_lt (by omega)
      rw [hmr]
    · rw [if_neg hT, opt idx hidx,
        if_neg (fun h => hT ⟨by omega, h.2.1, h.2.2.1, h.2.2.2⟩)]

/-- C3 witness: drawing the one-row sprite at the fresh machine (font
glyph byte at address 0, V0 = V1 = 0) succeeds and raises the redraw
flag. -/
theorem insDXYN_draw_witness :
    ∃ c3, Chip8.execute_instruction (Chip8.new 888) (.insDXYN 0 1 1)
      = some c3 ∧ c3.draw_flag = true := by
  obtain ⟨c3, hexec, hrest⟩ := insDXYN_draw (Chip8.new 888) 0 1 1
    (by show (Array.mkArray NUM_REGISTERS (0 : Nat)).size = 16
        rw [Array.size_mkArray]; rfl)
    (by decide) (by decide)
    (by show (Array.mkArray (SCREEN_WIDTH * SCREEN_HEIGHT) false).size = 2048
        rw [Array.size_mkArray]; rfl)
    (by show (Array.mkArray MEMORY_SIZE (0 : Nat)).size = 4096
        rw [Array.size_mkArray]; rfl)
    (by show (0 : Nat) + 1 ≤ 4096
        omega)
  refine ⟨c3, hexec, ?_⟩
  have hdf := hrest.2.2.2.2.2.2.2.2.2.2.2.1
  rw [hdf]
  simp

end Rsc8
